import Mathlib

/-!
Verification development for the `bevy-slime` simulation.

This file shallowly embeds the CPU-side logic of the repository:

* the render-node state machine (`src/render.rs`, `AgentSimNode::update`,
  and `src/main.rs`, `SlimeSimNode::update`);
* the per-frame decay/diffusion factor (`src/setup.rs`, `per_frame_factor`
  and `update_layer_params_buffer`);
* agent seeding (`src/agents.rs`, `generate_agents`);
* the pointer-to-texture clamp (`src/setup.rs`, `update_globals_uniform`);
* brush layer selection (`src/input.rs`, `handle_mouse_wheel_layer` and
  `handle_brush_hotkeys`);
* the dense per-species, per-layer weight matrix build
  (`src/species.rs`, `upload_species_to_gpu`);
* species authoring (`src/authoring.rs`, `channel_to_mask` and
  `build_species_settings_from_components`).

Machine floats (`f32`) are idealised as `ℝ` where transcendental functions
are involved and as `ℚ` where only copying and ring operations occur, so
that the latter stay executable.  Rust panics (`panic!` / `unreachable!`)
are modelled by `Option.none`.  Random draws are modelled as explicit
streams `ℕ → ℝ` constrained to the intervals the `rand` API guarantees.
-/

namespace BevySlime

/-! ## State machine (render.rs / main.rs) -/

/-- The observations `AgentSimNode::update` makes of the pipeline cache:
`CachedPipelineState::Ok(_)`, `Err(PipelineCacheError::ShaderNotLoaded(_))`,
`Err(_)` (any other error), and the catch-all `_` arm (queued/creating). -/
inductive CachedPipelineStateE where
  | ok
  | errShaderNotLoaded
  | errOther
  | queuedOrCreating
deriving DecidableEq, Repr

/-- `enum AgentSimState { Loading, Init, Update(usize) }` (identical to
`SlimeSimState` in main.rs). -/
inductive AgentSimState where
  | Loading
  | Init
  | Update (index : Nat)
deriving DecidableEq, Repr

/-- `AgentSimNode::update` from `src/render.rs`.  The pipeline-cache query
for the agent pipeline is `agentSimPipeline`; the readiness queries for the
three array pipelines are the three booleans.  In the `Init` arm the code
sets `diffuse_ok`, `copy_ok` and `input_ok` to the constant `true` (the
legacy pipelines were removed).  A `panic!` is modelled by `none`. -/
def AgentSimNode.update (state : AgentSimState)
    (agentSimPipeline : CachedPipelineStateE)
    (arrayDiffOk arrayInputOk arrayCompOk : Bool) : Option AgentSimState :=
  match state with
  | .Loading =>
    match agentSimPipeline with
    | .ok => some .Init
    | .errShaderNotLoaded => some .Loading
    | .errOther => none
    | .queuedOrCreating => some .Loading
  | .Init =>
    let diffuseOk := true
    let copyOk := true
    let inputOk := true
    if diffuseOk && copyOk && inputOk && arrayDiffOk && arrayInputOk && arrayCompOk then
      some (.Update 0)
    else
      some .Init
  | .Update 0 => some (.Update 1)
  | .Update 1 => some (.Update 0)
  | .Update _ => none

/-- `SlimeSimNode::update` from `src/main.rs`: same shape, but the `Init`
arm queries the diffuse, copy and input pipelines. -/
def SlimeSimNode.update (state : AgentSimState)
    (agentSimPipeline : CachedPipelineStateE)
    (diffuseOk copyOk inputOk : Bool) : Option AgentSimState :=
  match state with
  | .Loading =>
    match agentSimPipeline with
    | .ok => some .Init
    | .errShaderNotLoaded => some .Loading
    | .errOther => none
    | .queuedOrCreating => some .Loading
  | .Init =>
    if diffuseOk && copyOk && inputOk then
      some (.Update 0)
    else
      some .Init
  | .Update 0 => some (.Update 1)
  | .Update 1 => some (.Update 0)
  | .Update _ => none

/-- Iterated `AgentSimNode::update` from the default state `Loading`,
in an environment where every pipeline-cache query answers ready. -/
def AgentSimNode.runReady : Nat → Option AgentSimState
  | 0 => some .Loading
  | n + 1 => (AgentSimNode.runReady n).bind
      (fun s => AgentSimNode.update s .ok true true true)

/-- Iterated `SlimeSimNode::update` from `Loading` with every query ready. -/
def SlimeSimNode.runReady : Nat → Option AgentSimState
  | 0 => some .Loading
  | n + 1 => (SlimeSimNode.runReady n).bind
      (fun s => SlimeSimNode.update s .ok true true true)

/-! ## Per-frame factor (setup.rs) -/

/-- `per_frame_factor` from `src/setup.rs`:
`let base = 1.0 - rate; 1.0 - base.powf(dt)`, idealised over `ℝ`. -/
noncomputable def per_frame_factor (rate : ℝ) (dt : ℝ) : ℝ :=
  let base := 1 - rate
  1 - base ^ dt

/-- `PheromoneLayerParam` from `src/resources.rs` (diffusion, decay, two
padding floats, display color). -/
structure PheromoneLayerParam where
  diffusion : ℝ
  decay : ℝ
  pad0 : ℝ
  pad1 : ℝ
  color : ℝ × ℝ × ℝ × ℝ

/-- `update_layer_params_buffer` from `src/setup.rs`: on `dt <= 0.0` it
returns without uploading (`none`); otherwise it uploads the list of
per-frame factors computed by `per_frame_factor`. -/
noncomputable def update_layer_params_buffer (dt : ℝ)
    (cpuParams : List PheromoneLayerParam) : Option (List PheromoneLayerParam) :=
  if dt ≤ 0 then none
  else some (cpuParams.map (fun p =>
    { diffusion := per_frame_factor p.diffusion dt
      decay := per_frame_factor p.decay dt
      pad0 := 0
      pad1 := 0
      color := p.color }))

/-! ## Agent seeding (agents.rs) -/

/-- `Agent` from `src/agents.rs`. -/
structure Agent where
  position : ℝ × ℝ
  angle : ℝ
  species_index : ℕ

/-- glam's `Vec2::normalize_or_zero`: `v / ‖v‖` when the length is a
positive finite number, the zero vector otherwise. -/
noncomputable def normalize_or_zero (v : ℝ × ℝ) : ℝ × ℝ :=
  if v = (0, 0) then (0, 0)
  else (v.1 / Real.sqrt (v.1 ^ 2 + v.2 ^ 2), v.2 / Real.sqrt (v.1 ^ 2 + v.2 ^ 2))

/-- `f32::atan2`: `atan2 y x` is the argument of the point `(x, y)`. -/
noncomputable def atan2 (y x : ℝ) : ℝ := Complex.arg ⟨x, y⟩

/-- `generate_agents` from `src/agents.rs`.  The two random draws made for
agent `i` — `rng.random_range(0.0..TAU)` and `rng.random_range(0.0..1.0)` —
are modelled by the streams `rngAngle i` and `rngRadial i`. -/
noncomputable def generate_agents (size : ℕ × ℕ) (num_agents : ℕ)
    (species_count : ℕ) (rngAngle rngRadial : ℕ → ℝ) : List Agent :=
  let center : ℝ × ℝ := ((size.1 : ℝ) * 0.5, (size.2 : ℝ) * 0.5)
  let radius : ℝ := ((min size.1 size.2 : ℕ) : ℝ) * 0.4
  (List.range num_agents).map (fun i =>
    let angle := rngAngle i
    let r := radius * Real.sqrt (rngRadial i)
    let index := i % species_count
    let pos : ℝ × ℝ := (center.1 + Real.cos angle * r, center.2 + Real.sin angle * r)
    let dir_vec := normalize_or_zero (center.1 - pos.1, center.2 - pos.2)
    let dir := atan2 dir_vec.2 dir_vec.1
    { position := pos, angle := dir, species_index := index })

/-! ## Pointer clamp (setup.rs) -/

/-- `DISPLAY_FACTOR` from `src/resources.rs` / `src/main.rs`. -/
def DISPLAY_FACTOR : ℕ := 1

/-- `f32::clamp(self, min, max)` on reals (the panicking `min > max` case
does not arise at the call sites verified here). -/
noncomputable def f32_clamp (x lo hi : ℝ) : ℝ :=
  if x < lo then lo else if x > hi then hi else x

/-- The `mouse_position` computation of `update_globals_uniform` in
`src/setup.rs`: scale to texture space, clamp both coordinates to
`[0, screen_size - 1]`, then flip the y coordinate. -/
noncomputable def update_globals_uniform_mouse (mouse_pos : ℝ × ℝ)
    (screen_size : ℝ × ℝ) : ℝ × ℝ :=
  let tex : ℝ × ℝ := (mouse_pos.1 / (DISPLAY_FACTOR : ℝ) + screen_size.1 / 2,
                      mouse_pos.2 / (DISPLAY_FACTOR : ℝ) + screen_size.2 / 2)
  let texX := f32_clamp tex.1 0 (screen_size.1 - 1)
  let texY := f32_clamp tex.2 0 (screen_size.2 - 1)
  (texX, screen_size.2 - texY)

/-! ## Brush layer selection (input.rs) -/

/-- `handle_mouse_wheel_layer` from `src/input.rs`, parameterised by the
accumulated wheel delta (`+1` per upward event, `-1` per downward event).
Rust's `%` on `i32` is truncated remainder, i.e. `Int.tmod`; the code then
adds `layers` once when the remainder is negative, and casts back with
`as u32`. -/
def handle_mouse_wheel_layer (layer_count brush_target_layer : ℕ)
    (delta : ℤ) : ℕ :=
  if delta ≠ 0 then
    let layers : ℤ := ((max layer_count 1 : ℕ) : ℤ)
    let cur : ℤ := (brush_target_layer : ℤ)
    let next0 : ℤ := Int.tmod (cur + delta) layers
    let next : ℤ := if next0 < 0 then next0 + layers else next0
    next.toNat
  else brush_target_layer

/-- `handle_brush_hotkeys` from `src/input.rs`, parameterised by the digit
`pressed_digit` of the first pressed digit key: clamp with
`layer_count.saturating_sub(1)` (saturating subtraction is `Nat.sub`). -/
def handle_brush_hotkeys (layer_count pressed_digit : ℕ) : ℕ :=
  let max_layer := layer_count - 1
  if pressed_digit > max_layer then max_layer else pressed_digit

/-! ## Dense species weight matrix (species.rs) -/

/-- The authored inputs of one species that `upload_species_to_gpu` reads
when building the dense weight matrix: the legacy `Vec4` weights of its
`SpeciesSettings` and the optional per-layer `LayerWeights` vector. -/
structure SpeciesAuthored where
  weights : ℚ × ℚ × ℚ × ℚ
  layer_weights : Option (List ℚ)

/-- The loop `for li in 0..n { weights[base + li] = w_override[li]; }`,
acting on the flat buffer modelled as a function `ℕ → ℚ`. -/
def copyOverride (base : ℕ) (w_override : List ℚ) :
    ℕ → (ℕ → ℚ) → (ℕ → ℚ)
  | 0, weights => weights
  | n + 1, weights =>
    Function.update (copyOverride base w_override n weights) (base + n)
      (w_override.getD n 0)

/-- The four guarded legacy writes
`if l4 > 0 { weights[base + 0] = s.weights.x } ... if l4 > 3 { ... }`. -/
def writeLegacy (base : ℕ) (s : SpeciesAuthored) (l4 : ℕ)
    (weights : ℕ → ℚ) : ℕ → ℚ :=
  let weights := if 0 < l4 then Function.update weights (base + 0) s.weights.1 else weights
  let weights := if 1 < l4 then Function.update weights (base + 1) s.weights.2.1 else weights
  let weights := if 2 < l4 then Function.update weights (base + 2) s.weights.2.2.1 else weights
  if 3 < l4 then Function.update weights (base + 3) s.weights.2.2.2 else weights

/-- One iteration of the first loop of the matrix build: either copy the
explicit override (bounded by `layer_count.min(w_override.len())`) or map
the legacy `Vec4` into the first `layer_count.min(4)` entries. -/
def writeSpeciesRow (layer_count si : ℕ) (s : SpeciesAuthored)
    (weights : ℕ → ℚ) : ℕ → ℚ :=
  let base := si * layer_count
  match s.layer_weights with
  | some w_override =>
    copyOverride base w_override (min layer_count w_override.length) weights
  | none => writeLegacy base s (min layer_count 4) weights

/-- `for (si, s) in species.iter().enumerate() { ... }`, with the running
index made explicit. -/
def speciesRowsFrom (layer_count : ℕ) :
    ℕ → List SpeciesAuthored → (ℕ → ℚ) → (ℕ → ℚ)
  | _, [], weights => weights
  | si, s :: rest, weights =>
    speciesRowsFrom layer_count (si + 1) rest
      (writeSpeciesRow layer_count si s weights)

/-- The inner loop `for li in 0..layer_count` of the universal override
pass: a layer in `love_set` is forced to `1.0`, then a layer in `hate_set`
is forced to `-1.0`. -/
def universalRow (love hate : List ℕ) (base : ℕ) :
    ℕ → (ℕ → ℚ) → (ℕ → ℚ)
  | 0, weights => weights
  | li + 1, weights =>
    let weights := universalRow love hate base li weights
    let weights := if li ∈ love then Function.update weights (base + li) 1 else weights
    if li ∈ hate then Function.update weights (base + li) (-1) else weights

/-- The outer loop `for si in 0..species_count` of the universal pass. -/
def universalRows (love hate : List ℕ) (layer_count : ℕ) :
    ℕ → (ℕ → ℚ) → (ℕ → ℚ)
  | 0, weights => weights
  | si + 1, weights =>
    universalRow love hate (si * layer_count) layer_count
      (universalRows love hate layer_count si weights)

/-- The dense-weight-matrix portion of `upload_species_to_gpu` in
`src/species.rs` (lines 232-271): start from an all-zero flat buffer of
conceptual size `species_count * layer_count`, write each species row, then
apply the universal love/hate overrides.  `species` is the list after the
empty-fallback; `universal_love_layers` / `universal_hate_layers` are the
configured sets (order and duplicates in the lists do not matter for
membership).  The entry for species `s` and layer `l` lives at flat index
`s * max cfg_layer_count 1 + l`. -/
def upload_species_weights (species : List SpeciesAuthored)
    (cfg_layer_count : ℕ)
    (universal_love_layers universal_hate_layers : List ℕ) : ℕ → ℚ :=
  let layer_count := max cfg_layer_count 1
  let species_count := species.length
  let weights : ℕ → ℚ := fun _ => 0
  let weights := speciesRowsFrom layer_count 0 species weights
  universalRows universal_love_layers universal_hate_layers layer_count
    species_count weights

/-- The `l`-th component of the legacy `Vec4` weights, `0` past the end. -/
def legacyComponent (s : SpeciesAuthored) : ℕ → ℚ
  | 0 => s.weights.1
  | 1 => s.weights.2.1
  | 2 => s.weights.2.2.1
  | 3 => s.weights.2.2.2
  | _ => 0

/-- Specification-side description of the authored (pre-override) matrix
entry for one species and layer, used to state the round-trip claim. -/
def authoredEntry (s : SpeciesAuthored) (layer_count l : ℕ) : ℚ :=
  match s.layer_weights with
  | some w_override =>
    if l < min layer_count w_override.length then w_override.getD l 0 else 0
  | none =>
    if l < min layer_count 4 then legacyComponent s l else 0

/-! ## Species authoring (authoring.rs) -/

/-- `channel_to_mask` from `src/authoring.rs` (the copy in `src/species.rs`
is textually identical). -/
def channel_to_mask (channel : ℕ) : ℚ × ℚ × ℚ × ℚ :=
  match channel with
  | 0 => (1, 0, 0, 1)
  | 1 => (0, 1, 0, 1)
  | 2 => (0, 0, 1, 1)
  | 3 => (0, 0, 0, 1)
  | _ => (0, 0, 0, 1)

/-- `SpeciesSettings` fields assigned by
`build_species_settings_from_components` in `src/authoring.rs`. -/
structure SpeciesSettings where
  move_speed : ℚ
  turn_speed : ℚ
  sensor_angle_degrees : ℚ
  sensor_offset_dst : ℚ
  sensor_size : ℚ
  color : ℚ × ℚ × ℚ × ℚ
  weights : ℚ × ℚ × ℚ × ℚ
  emit : ℚ × ℚ × ℚ × ℚ

/-- `SpeciesSettings::default()`: all fields zero. -/
def SpeciesSettings.zeroDefault : SpeciesSettings :=
  ⟨0, 0, 0, 0, 0, (0, 0, 0, 0), (0, 0, 0, 0), (0, 0, 0, 0)⟩

/-- `FollowsPheromone` authoring component. -/
structure FollowsPheromone where
  channel : ℕ
  strength : ℚ

/-- `AvoidsPheromone` authoring component. -/
structure AvoidsPheromone where
  channel : ℕ
  strength : ℚ

/-- `EmitsPheromone` authoring component. -/
structure EmitsPheromone where
  channel : ℕ
  amount : ℚ

/-- Componentwise `Vec4` addition. -/
def v4add (a b : ℚ × ℚ × ℚ × ℚ) : ℚ × ℚ × ℚ × ℚ :=
  (a.1 + b.1, a.2.1 + b.2.1, a.2.2.1 + b.2.2.1, a.2.2.2 + b.2.2.2)

/-- Componentwise `Vec4` subtraction. -/
def v4sub (a b : ℚ × ℚ × ℚ × ℚ) : ℚ × ℚ × ℚ × ℚ :=
  (a.1 - b.1, a.2.1 - b.2.1, a.2.2.1 - b.2.2.1, a.2.2.2 - b.2.2.2)

/-- `Vec4` times scalar. -/
def v4smul (a : ℚ × ℚ × ℚ × ℚ) (s : ℚ) : ℚ × ℚ × ℚ × ℚ :=
  (a.1 * s, a.2.1 * s, a.2.2.1 * s, a.2.2.2 * s)

/-- The `i`-th component of a `Vec4` (`x`, `y`, `z`, `w`; `0` past the end). -/
def v4get (v : ℚ × ℚ × ℚ × ℚ) : ℕ → ℚ
  | 0 => v.1
  | 1 => v.2.1
  | 2 => v.2.2.1
  | 3 => v.2.2.2
  | _ => 0

/-- `build_species_settings_from_components` from `src/authoring.rs`:
copies the plain fields, accumulates `weights` from the optional follow and
avoid components via `channel_to_mask`, builds `emit` from the optional
emit component and zeroes its `w` component. -/
def build_species_settings_from_components
    (color : ℚ × ℚ × ℚ × ℚ) (move_speed turn_speed : ℚ)
    (sensor_angle_degrees sensor_offset_dst sensor_size : ℚ)
    (follow : Option FollowsPheromone) (avoid : Option AvoidsPheromone)
    (emit : Option EmitsPheromone) : SpeciesSettings :=
  let settings := SpeciesSettings.zeroDefault
  let settings := { settings with
    color := color
    move_speed := move_speed
    turn_speed := turn_speed
    sensor_angle_degrees := sensor_angle_degrees
    sensor_offset_dst := sensor_offset_dst
    sensor_size := sensor_size }
  let weights : ℚ × ℚ × ℚ × ℚ := (0, 0, 0, 0)
  let weights := match follow with
    | some f => v4add weights (v4smul (channel_to_mask f.channel) f.strength)
    | none => weights
  let weights := match avoid with
    | some a => v4sub weights (v4smul (channel_to_mask a.channel) a.strength)
    | none => weights
  let settings := { settings with weights := weights }
  let emit_v : ℚ × ℚ × ℚ × ℚ := (0, 0, 0, 0)
  let emit_v := match emit with
    | some e => v4add emit_v (v4smul (channel_to_mask e.channel) e.amount)
    | none => emit_v
  let emit_v : ℚ × ℚ × ℚ × ℚ := (emit_v.1, emit_v.2.1, emit_v.2.2.1, 0)
  { settings with emit := emit_v }

/-! ## Theorems -/

/-- Helper: the all-ready trace of `AgentSimNode`; update call `2 + n`
leaves the node in `Update (n % 2)`. -/
theorem agentRunReady_two_add (n : ℕ) :
    AgentSimNode.runReady (2 + n) = some (.Update (n % 2)) := by
  induction n with
  | zero => rfl
  | succ n ih =>
    have h2 : 2 + (n + 1) = (2 + n) + 1 := by omega
    rw [h2, AgentSimNode.runReady, ih]
    rcases Nat.mod_two_eq_zero_or_one n with h | h
    · have h3 : (n + 1) % 2 = 1 := by omega
      rw [h, h3]
      rfl
    · have h3 : (n + 1) % 2 = 0 := by omega
      rw [h, h3]
      rfl

/-- Helper: the all-ready trace of `SlimeSimNode`. -/
theorem slimeRunReady_two_add (n : ℕ) :
    SlimeSimNode.runReady (2 + n) = some (.Update (n % 2)) := by
  induction n with
  | zero => rfl
  | succ n ih =>
    have h2 : 2 + (n + 1) = (2 + n) + 1 := by omega
    rw [h2, SlimeSimNode.runReady, ih]
    rcases Nat.mod_two_eq_zero_or_one n with h | h
    · have h3 : (n + 1) % 2 = 1 := by omega
      rw [h, h3]
      rfl
    · have h3 : (n + 1) % 2 = 0 := by omega
      rw [h, h3]
      rfl

/-- C1 (amended): starting in `Loading` with every readiness query
answering ready, the first `update()` call transitions to `Init`, ONE more
call transitions to `Update 0` (so the node is in `Update (n % 2)` after
`2 + n` calls), and every `update()` call in an `Update i` state
(`i ≤ 1`) flips it to `Update (1 - i)` regardless of the query results.
Both `AgentSimNode` (render.rs) and `SlimeSimNode` (main.rs) satisfy
this. -/
theorem c1_state_machine_trace :
    (AgentSimNode.runReady 1 = some .Init ∧ SlimeSimNode.runReady 1 = some .Init)
    ∧ (AgentSimNode.runReady 2 = some (.Update 0)
        ∧ SlimeSimNode.runReady 2 = some (.Update 0))
    ∧ (∀ n : ℕ, AgentSimNode.runReady (2 + n) = some (.Update (n % 2))
        ∧ SlimeSimNode.runReady (2 + n) = some (.Update (n % 2)))
    ∧ (∀ (i : ℕ) (q : CachedPipelineStateE) (a b c : Bool), i ≤ 1 →
        AgentSimNode.update (.Update i) q a b c = some (.Update (1 - i))
        ∧ SlimeSimNode.update (.Update i) q a b c = some (.Update (1 - i))) := by
  refine ⟨⟨rfl, rfl⟩, ⟨rfl, rfl⟩, ?_, ?_⟩
  · intro n
    exact ⟨agentRunReady_two_add n, slimeRunReady_two_add n⟩
  · intro i q a b c hi
    interval_cases i
    · cases q <;> exact ⟨rfl, rfl⟩
    · cases q <;> exact ⟨rfl, rfl⟩

/-- C1 witness: the amended claim applied at a concrete call count and a
concrete `Update` flip. -/
theorem c1_witness :
    AgentSimNode.runReady 4 = some (.Update 0)
    ∧ AgentSimNode.update (.Update 1) .ok true true true = some (.Update 0) := by
  constructor
  · have h := (c1_state_machine_trace.2.2.1 2).1
    simpa using h
  · exact (c1_state_machine_trace.2.2.2 1 .ok true true true (by decide)).1

/-- C1 counterexample: with every query ready, the node reaches `Init`
after one `update()` call, but two further calls leave it in `Update 1`,
not `Update 0` — reaching `Update 0` takes exactly one further call, not
two. -/
theorem c1_counterexample :
    AgentSimNode.runReady 1 = some .Init
    ∧ AgentSimNode.runReady 3 = some (.Update 1)
    ∧ AgentSimNode.runReady 3 ≠ some (.Update 0) := by
  refine ⟨rfl, rfl, ?_⟩
  decide

/-- C7: in `Loading`, a `ShaderNotLoaded` pipeline result leaves the state
at `Loading` (retried next frame); any other pipeline-cache error panics
(modelled by `none`); a successful result transitions to `Init` — all
independently of the array-pipeline readiness booleans. -/
theorem c7_loading_error_handling :
    ∀ (a b c : Bool),
      AgentSimNode.update .Loading .errShaderNotLoaded a b c = some .Loading
      ∧ AgentSimNode.update .Loading .errOther a b c = none
      ∧ AgentSimNode.update .Loading .ok a b c = some .Init :=
  fun _ _ _ => ⟨rfl, rfl, rfl⟩

/-- Helper: `per_frame_factor r 0 = 0` for every rate. -/
theorem per_frame_factor_zero (r : ℝ) : per_frame_factor r 0 = 0 := by
  simp [per_frame_factor, Real.rpow_zero]

/-- Helper: strict monotonicity of `per_frame_factor` in `dt` for rates
strictly between 0 and 1. -/
theorem per_frame_factor_strict_mono {r dt1 dt2 : ℝ} (h0 : 0 < r)
    (h1 : r < 1) (hlt : dt1 < dt2) :
    per_frame_factor r dt1 < per_frame_factor r dt2 := by
  have hb0 : (0 : ℝ) < 1 - r := by linarith
  have hb1 : 1 - r < 1 := by linarith
  have h := Real.rpow_lt_rpow_of_exponent_gt hb0 hb1 hlt
  simp only [per_frame_factor]
  linarith

/-- Helper: `per_frame_factor` is nonnegative for `0 ≤ r < 1`, `0 ≤ dt`. -/
theorem per_frame_factor_nonneg {r dt : ℝ} (h0 : 0 ≤ r) (h1 : r < 1)
    (hdt : 0 ≤ dt) : 0 ≤ per_frame_factor r dt := by
  have hb0 : (0 : ℝ) ≤ 1 - r := by linarith
  have hb1 : 1 - r ≤ 1 := by linarith
  have h := Real.rpow_le_one hb0 hb1 hdt
  simp only [per_frame_factor]
  linarith

/-- Helper: `1 - per_frame_factor r dt` is the power `(1 - r) ^ dt`. -/
theorem one_sub_per_frame_factor (r dt : ℝ) :
    1 - per_frame_factor r dt = (1 - r) ^ dt := by
  simp [per_frame_factor]

/-- Helper: `per_frame_factor` never exceeds 1 when `r ≤ 1`. -/
theorem per_frame_factor_le_one {r : ℝ} (dt : ℝ) (h1 : r ≤ 1) :
    per_frame_factor r dt ≤ 1 := by
  have h : (0 : ℝ) ≤ (1 - r) ^ dt := Real.rpow_nonneg (by linarith) dt
  simp only [per_frame_factor]
  linarith

/-- C3 (amended): for rates `r` strictly between 0 and 1 the per-frame
factor `f(r, dt) = 1 - (1 - r)^dt` is strictly monotonic in `dt`, and
`f(r, 0) = 0` for every `r ∈ [0, 1)`.  (At `r = 0` the factor is
constantly 0, so strictness fails there — see the counterexample.) -/
theorem c3_factor_monotonic_amended :
    (∀ r dt1 dt2 : ℝ, 0 < r → r < 1 → 0 ≤ dt1 → dt1 < dt2 →
        per_frame_factor r dt1 < per_frame_factor r dt2)
    ∧ ∀ r : ℝ, 0 ≤ r → r < 1 → per_frame_factor r 0 = 0 := by
  constructor
  · intro r dt1 dt2 h0 h1 _ hlt
    exact per_frame_factor_strict_mono h0 h1 hlt
  · intro r _ _
    exact per_frame_factor_zero r

/-- C3 witness: the amended claim applied at `r = 1/2`, `dt1 = 0`,
`dt2 = 1`. -/
theorem c3_witness :
    per_frame_factor (1 / 2) 0 < per_frame_factor (1 / 2) 1
    ∧ per_frame_factor (1 / 2) 0 = 0 :=
  ⟨c3_factor_monotonic_amended.1 (1 / 2) 0 1 (by norm_num) (by norm_num)
      (by norm_num) (by norm_num),
   c3_factor_monotonic_amended.2 (1 / 2) (by norm_num) (by norm_num)⟩

/-- C3 counterexample: at the authored rate `r = 0` (which is in `[0,1)`)
and `dt1 = 0 < 1 = dt2`, the factor is 0 at both times, so the strict
inequality `f(r, dt1) < f(r, dt2)` claimed for every `r ∈ [0,1)` fails. -/
theorem c3_counterexample :
    per_frame_factor 0 0 = 0 ∧ per_frame_factor 0 1 = 0
    ∧ ¬ per_frame_factor 0 0 < per_frame_factor 0 1 := by
  have h1 : per_frame_factor 0 1 = 0 := by
    simp [per_frame_factor, Real.one_rpow]
  have h0 : per_frame_factor 0 0 = 0 := per_frame_factor_zero 0
  exact ⟨h0, h1, by rw [h0, h1]; exact lt_irrefl 0⟩

/-- C9: for `dt > 0` and every layer whose authored decay rate lies in
`[0, 1)`, `update_layer_params_buffer` uploads a decay factor in `[0, 1]`,
and multiplying any nonnegative cell intensity by `1 - factor` stays
nonnegative. -/
theorem c9_decay_factor_unit_interval :
    ∀ (dt : ℝ) (cpuParams : List PheromoneLayerParam),
      0 < dt →
      (∀ p ∈ cpuParams, 0 ≤ p.decay ∧ p.decay < 1) →
      ∃ out, update_layer_params_buffer dt cpuParams = some out
        ∧ ∀ q ∈ out, (0 ≤ q.decay ∧ q.decay ≤ 1)
            ∧ ∀ c : ℝ, 0 ≤ c → 0 ≤ c * (1 - q.decay) := by
  intro dt cpu hdt hcpu
  have hne : ¬ dt ≤ 0 := not_le.mpr hdt
  refine ⟨_, by rw [update_layer_params_buffer, if_neg hne], ?_⟩
  intro q hq
  rcases List.mem_map.1 hq with ⟨p, hp, rfl⟩
  obtain ⟨hp0, hp1⟩ := hcpu p hp
  refine ⟨⟨per_frame_factor_nonneg hp0 hp1 hdt.le,
      per_frame_factor_le_one dt hp1.le⟩, ?_⟩
  intro c hc
  have hrw : (1 : ℝ) - per_frame_factor p.decay dt = (1 - p.decay) ^ dt :=
    one_sub_per_frame_factor _ _
  show 0 ≤ c * (1 - per_frame_factor p.decay dt)
  rw [hrw]
  exact mul_nonneg hc (Real.rpow_nonneg (by linarith) dt)

/-- C9 witness: the claim applied at `dt = 1` and the authored "love"
layer parameters `(diffusion, decay) = (0.4, 0.7)`. -/
theorem c9_witness :
    ∃ out,
      update_layer_params_buffer 1
        [⟨(4 : ℝ)/10, 7/10, 0, 0, (0, 0, 0, 1)⟩] = some out
      ∧ ∀ q ∈ out, (0 ≤ q.decay ∧ q.decay ≤ 1)
          ∧ ∀ c : ℝ, 0 ≤ c → 0 ≤ c * (1 - q.decay) :=
  c9_decay_factor_unit_interval 1 _ (by norm_num)
    (by
      intro p hp
      simp only [List.mem_singleton] at hp
      subst hp
      norm_num)

/-- Helper: `f32_clamp` lands in `[lo, hi]` whenever `lo ≤ hi`. -/
theorem f32_clamp_mem {x lo hi : ℝ} (h : lo ≤ hi) :
    lo ≤ f32_clamp x lo hi ∧ f32_clamp x lo hi ≤ hi := by
  unfold f32_clamp
  split_ifs with h1 h2
  · exact ⟨le_refl lo, h⟩
  · exact ⟨h, le_refl hi⟩
  · exact ⟨not_lt.mp h1, not_lt.mp h2⟩

/-- C5 (amended): for every pointer position, the stored `mouse_position`
satisfies `0 ≤ x ≤ screen_size.x - 1` but, because the y coordinate is
flipped AFTER the clamp, `1 ≤ y ≤ screen_size.y` — the y coordinate can
equal `screen_size.y`, one past the last texel row. -/
theorem c5_mouse_clamp_amended :
    ∀ (mouse_pos screen_size : ℝ × ℝ),
      1 ≤ screen_size.1 → 1 ≤ screen_size.2 →
      0 ≤ (update_globals_uniform_mouse mouse_pos screen_size).1
      ∧ (update_globals_uniform_mouse mouse_pos screen_size).1 ≤ screen_size.1 - 1
      ∧ 1 ≤ (update_globals_uniform_mouse mouse_pos screen_size).2
      ∧ (update_globals_uniform_mouse mouse_pos screen_size).2 ≤ screen_size.2 := by
  intro mp ss h1 h2
  obtain ⟨hx1, hx2⟩ :=
    @f32_clamp_mem (mp.1 / (DISPLAY_FACTOR : ℝ) + ss.1 / 2) 0 (ss.1 - 1) (by linarith)
  obtain ⟨hy1, hy2⟩ :=
    @f32_clamp_mem (mp.2 / (DISPLAY_FACTOR : ℝ) + ss.2 / 2) 0 (ss.2 - 1) (by linarith)
  refine ⟨hx1, hx2, ?_, ?_⟩
  · show 1 ≤ ss.2 - f32_clamp (mp.2 / (DISPLAY_FACTOR : ℝ) + ss.2 / 2) 0 (ss.2 - 1)
    linarith
  · show ss.2 - f32_clamp (mp.2 / (DISPLAY_FACTOR : ℝ) + ss.2 / 2) 0 (ss.2 - 1) ≤ ss.2
    linarith

/-- C5 witness: the amended bounds at a concrete pointer position and the
1920×1080 screen size. -/
theorem c5_witness :
    0 ≤ (update_globals_uniform_mouse (5, 7) (1920, 1080)).1
    ∧ (update_globals_uniform_mouse (5, 7) (1920, 1080)).1 ≤ 1920 - 1
    ∧ 1 ≤ (update_globals_uniform_mouse (5, 7) (1920, 1080)).2
    ∧ (update_globals_uniform_mouse (5, 7) (1920, 1080)).2 ≤ 1080 :=
  c5_mouse_clamp_amended (5, 7) (1920, 1080) (by norm_num) (by norm_num)

/-- C5 counterexample: a pointer far below the window.  The clamped y
texel is 0, and the subsequent flip stores `y = 1080 = screen_size.y`,
which violates the claimed bound `y ≤ screen_size.y - 1`. -/
theorem c5_counterexample :
    (update_globals_uniform_mouse (0, -1000000) (1920, 1080)).2 = 1080
    ∧ ¬ (update_globals_uniform_mouse (0, -1000000) (1920, 1080)).2
        ≤ (1080 : ℝ) - 1 := by
  constructor
  · show (1080 : ℝ)
        - f32_clamp (-1000000 / (DISPLAY_FACTOR : ℝ) + 1080 / 2) 0 (1080 - 1)
        = 1080
    norm_num [f32_clamp, DISPLAY_FACTOR]
  · show ¬ (1080 : ℝ)
        - f32_clamp (-1000000 / (DISPLAY_FACTOR : ℝ) + 1080 / 2) 0 (1080 - 1)
        ≤ (1080 : ℝ) - 1
    norm_num [f32_clamp, DISPLAY_FACTOR]

/-- Helper: the remainder fix-up performed by `handle_mouse_wheel_layer`
turns Rust's truncated remainder into the Euclidean remainder. -/
theorem tmod_fixup (a b : ℤ) (hb : 0 < b) :
    (if Int.tmod a b < 0 then Int.tmod a b + b else Int.tmod a b) = a % b := by
  have key : a % b = Int.tmod a b % b := by
    conv_lhs => rw [← Int.tmod_add_tdiv a b]
    rw [Int.add_mul_emod_self_left]
  have hlt : Int.tmod a b < b := Int.tmod_lt_of_pos a hb
  have hneg : Int.tmod (-a) b = -Int.tmod a b := by
    rw [Int.tmod_def, Int.tmod_def, Int.neg_tdiv]
    ring
  have hlb : -b < Int.tmod a b := by
    have h2 := Int.tmod_lt_of_pos (-a) hb
    rw [hneg] at h2
    linarith
  split_ifs with h
  · rw [key, ← Int.add_emod_self, Int.emod_eq_of_lt (by linarith) (by linarith)]
  · rw [key, Int.emod_eq_of_lt (not_lt.mp h) hlt]

/-- C8: scrolling with accumulated delta `d ≠ 0` sets the brush layer to
the Euclidean remainder `(current + d) mod max(layer_count, 1)` (wrapping
negatives), a digit key `k` sets it to `min k (layer_count - 1)`, and both
results lie in `[0, max(layer_count, 1) - 1]`. -/
theorem c8_brush_layer_selection :
    ∀ (layer_count cur k : ℕ) (delta : ℤ),
      cur < layer_count →
      (delta ≠ 0 →
          (handle_mouse_wheel_layer layer_count cur delta : ℤ)
            = ((cur : ℤ) + delta) % ((max layer_count 1 : ℕ) : ℤ))
      ∧ handle_mouse_wheel_layer layer_count cur delta < max layer_count 1
      ∧ handle_brush_hotkeys layer_count k = min k (layer_count - 1)
      ∧ handle_brush_hotkeys layer_count k < max layer_count 1 := by
  intro L cur k delta hcur
  have hL1 : 1 ≤ max L 1 := le_max_right L 1
  have hL : (0 : ℤ) < ((max L 1 : ℕ) : ℤ) := by exact_mod_cast hL1
  have hwheel : delta ≠ 0 →
      handle_mouse_wheel_layer L cur delta
        = (((cur : ℤ) + delta) % ((max L 1 : ℕ) : ℤ)).toNat := by
    intro hd
    unfold handle_mouse_wheel_layer
    rw [if_pos hd]
    show (if Int.tmod ((cur : ℤ) + delta) ((max L 1 : ℕ) : ℤ) < 0
        then Int.tmod ((cur : ℤ) + delta) ((max L 1 : ℕ) : ℤ) + ((max L 1 : ℕ) : ℤ)
        else Int.tmod ((cur : ℤ) + delta) ((max L 1 : ℕ) : ℤ)).toNat
      = (((cur : ℤ) + delta) % ((max L 1 : ℕ) : ℤ)).toNat
    rw [tmod_fixup _ _ hL]
  refine ⟨?_, ?_, ?_, ?_⟩
  · intro hd
    rw [hwheel hd]
    exact Int.toNat_of_nonneg (Int.emod_nonneg _ hL.ne')
  · by_cases hd : delta = 0
    · subst hd
      show (if (0 : ℤ) ≠ 0 then _ else cur) < max L 1
      rw [if_neg (by simp)]
      omega
    · rw [hwheel hd]
      have hm1 := Int.emod_lt_of_pos ((cur : ℤ) + delta) hL
      have hm0 := Int.emod_nonneg ((cur : ℤ) + delta) hL.ne'
      omega
  · show (if k > L - 1 then L - 1 else k) = min k (L - 1)
    split_ifs with h
    · omega
    · omega
  · show (if k > L - 1 then L - 1 else k) < max L 1
    split_ifs with h
    · omega
    · omega

/-- C8 witness: the claim applied with `layer_count = 5`, current layer 3,
digit key 7 and wheel delta `-4`. -/
theorem c8_witness :
    ((-4 : ℤ) ≠ 0 →
        (handle_mouse_wheel_layer 5 3 (-4) : ℤ)
          = (((3 : ℕ) : ℤ) + (-4)) % ((max 5 1 : ℕ) : ℤ))
    ∧ handle_mouse_wheel_layer 5 3 (-4) < max 5 1
    ∧ handle_brush_hotkeys 5 7 = min 7 (5 - 1)
    ∧ handle_brush_hotkeys 5 7 < max 5 1 :=
  c8_brush_layer_selection 5 3 7 (-4) (by decide)

/-- C4: `generate_agents` returns exactly `count` agents; the `i`-th agent
has `species_index = i % species_count` (hence `< species_count`), its
position lies within the field bounds `[0, width] × [0, height]`, and its
heading is a well-defined (finite) angle in `[-π, π]` — for every field
size, every count, every `species_count ≥ 1` and every random stream whose
radial draws lie in `[0, 1)` as `rand` guarantees. -/
theorem c4_generate_agents :
    ∀ (size : ℕ × ℕ) (n sc : ℕ) (rngAngle rngRadial : ℕ → ℝ),
      1 ≤ sc →
      (∀ i, 0 ≤ rngRadial i ∧ rngRadial i < 1) →
      (generate_agents size n sc rngAngle rngRadial).length = n
      ∧ ∀ (i : ℕ) (ag : Agent),
          (generate_agents size n sc rngAngle rngRadial)[i]? = some ag →
          ag.species_index = i % sc
          ∧ ag.species_index < sc
          ∧ 0 ≤ ag.position.1 ∧ ag.position.1 ≤ (size.1 : ℝ)
          ∧ 0 ≤ ag.position.2 ∧ ag.position.2 ≤ (size.2 : ℝ)
          ∧ |ag.angle| ≤ Real.pi := by
  intro size n sc aS uS hsc hu
  constructor
  · simp [generate_agents]
  · intro i ag hag
    simp only [generate_agents, List.getElem?_map, List.getElem?_range] at hag
    rcases hlt : (List.range n)[i]? with _ | j
    · rw [hlt] at hag
      simp at hag
    · rw [hlt] at hag
      have hj : j = i := by
        have hi : i < n := by
          by_contra hi
          rw [List.getElem?_eq_none (by simpa using Nat.le_of_not_lt hi)] at hlt
          exact Option.noConfusion hlt
        have h := List.getElem?_range hi
        rw [hlt] at h
        exact Option.some.inj h
      subst hj
      obtain rfl := Option.some.inj hag
      have hu0 : 0 ≤ uS j := (hu j).1
      have hu1 : uS j ≤ 1 := le_of_lt (hu j).2
      have hs0 : 0 ≤ Real.sqrt (uS j) := Real.sqrt_nonneg _
      have hs1 : Real.sqrt (uS j) ≤ 1 := by
        have h := Real.sqrt_le_sqrt hu1
        rwa [Real.sqrt_one] at h
      have hm0 : (0 : ℝ) ≤ ((min size.1 size.2 : ℕ) : ℝ) := Nat.cast_nonneg _
      have hmW : ((min size.1 size.2 : ℕ) : ℝ) ≤ (size.1 : ℝ) :=
        Nat.cast_le.mpr (min_le_left _ _)
      have hmH : ((min size.1 size.2 : ℕ) : ℝ) ≤ (size.2 : ℝ) :=
        Nat.cast_le.mpr (min_le_right _ _)
      have hrad0 : (0 : ℝ) ≤ ((min size.1 size.2 : ℕ) : ℝ) * 0.4 := by linarith
      have hr0 : (0 : ℝ) ≤ ((min size.1 size.2 : ℕ) : ℝ) * 0.4 * Real.sqrt (uS j) :=
        mul_nonneg hrad0 hs0
      have hrr : ((min size.1 size.2 : ℕ) : ℝ) * 0.4 * Real.sqrt (uS j)
          ≤ ((min size.1 size.2 : ℕ) : ℝ) * 0.4 :=
        mul_le_of_le_one_right hrad0 hs1
      have hcos := abs_le.1 (by
        rw [abs_mul, abs_of_nonneg hr0]
        exact mul_le_of_le_one_left hr0 (Real.abs_cos_le_one (aS j)) :
        |Real.cos (aS j) * (((min size.1 size.2 : ℕ) : ℝ) * 0.4 * Real.sqrt (uS j))|
          ≤ ((min size.1 size.2 : ℕ) : ℝ) * 0.4 * Real.sqrt (uS j))
      have hsin := abs_le.1 (by
        rw [abs_mul, abs_of_nonneg hr0]
        exact mul_le_of_le_one_left hr0 (Real.abs_sin_le_one (aS j)) :
        |Real.sin (aS j) * (((min size.1 size.2 : ℕ) : ℝ) * 0.4 * Real.sqrt (uS j))|
          ≤ ((min size.1 size.2 : ℕ) : ℝ) * 0.4 * Real.sqrt (uS j))
      have hW0 : (0 : ℝ) ≤ (size.1 : ℝ) := Nat.cast_nonneg _
      have hH0 : (0 : ℝ) ≤ (size.2 : ℝ) := Nat.cast_nonneg _
      refine ⟨rfl, Nat.mod_lt j hsc, ?_, ?_, ?_, ?_, Complex.abs_arg_le_pi _⟩
      · show (0 : ℝ) ≤ (size.1 : ℝ) * 0.5
            + Real.cos (aS j) * (((min size.1 size.2 : ℕ) : ℝ) * 0.4 * Real.sqrt (uS j))
        nlinarith [hcos.1, hrr, hmW]
      · show (size.1 : ℝ) * 0.5
            + Real.cos (aS j) * (((min size.1 size.2 : ℕ) : ℝ) * 0.4 * Real.sqrt (uS j))
          ≤ (size.1 : ℝ)
        nlinarith [hcos.2, hrr, hmW]
      · show (0 : ℝ) ≤ (size.2 : ℝ) * 0.5
            + Real.sin (aS j) * (((min size.1 size.2 : ℕ) : ℝ) * 0.4 * Real.sqrt (uS j))
        nlinarith [hsin.1, hrr, hmH]
      · show (size.2 : ℝ) * 0.5
            + Real.sin (aS j) * (((min size.1 size.2 : ℕ) : ℝ) * 0.4 * Real.sqrt (uS j))
          ≤ (size.2 : ℝ)
        nlinarith [hsin.2, hrr, hmH]

/-- C4 witness: the claim applied at a 200×100 field, 1000 agents, 3
species, and the all-zero random streams. -/
theorem c4_witness :
    (generate_agents (200, 100) 1000 3 (fun _ => 0) (fun _ => 0)).length
      = 1000 :=
  (c4_generate_agents (200, 100) 1000 3 (fun _ => 0) (fun _ => 0)
    (by norm_num) (fun _ => ⟨le_refl 0, by norm_num⟩)).1

/-- C6 (amended): no agent starts exactly at the field center PROVIDED the
field has a positive smaller dimension and every radial draw is strictly
positive.  The raw draw `rng.random_range(0.0..1.0)` can return exactly 0,
in which case the agent is placed exactly at the center — see the
counterexample. -/
theorem c6_no_agent_at_center_amended :
    ∀ (size : ℕ × ℕ) (n sc : ℕ) (rngAngle rngRadial : ℕ → ℝ),
      0 < min size.1 size.2 →
      (∀ i, 0 < rngRadial i ∧ rngRadial i < 1) →
      ∀ ag ∈ generate_agents size n sc rngAngle rngRadial,
        ag.position ≠ ((size.1 : ℝ) * 0.5, (size.2 : ℝ) * 0.5) := by
  intro size n sc aS uS hmin hu ag hag
  simp only [generate_agents, List.mem_map, List.mem_range] at hag
  obtain ⟨i, _, rfl⟩ := hag
  intro heq
  have h1 : Real.cos (aS i) * (((min size.1 size.2 : ℕ) : ℝ) * 0.4 * Real.sqrt (uS i)) = 0 := by
    have := congrArg Prod.fst heq
    simp only at this
    linarith
  have h2 : Real.sin (aS i) * (((min size.1 size.2 : ℕ) : ℝ) * 0.4 * Real.sqrt (uS i)) = 0 := by
    have := congrArg Prod.snd heq
    simp only at this
    linarith
  have hrpos : (0 : ℝ) < ((min size.1 size.2 : ℕ) : ℝ) * 0.4 * Real.sqrt (uS i) := by
    have hm : (0 : ℝ) < ((min size.1 size.2 : ℕ) : ℝ) := by exact_mod_cast hmin
    have hs : (0 : ℝ) < Real.sqrt (uS i) := Real.sqrt_pos.2 (hu i).1
    positivity
  have hcos : Real.cos (aS i) = 0 := by
    rcases mul_eq_zero.1 h1 with h | h
    · exact h
    · exact absurd h hrpos.ne'
  have hsin : Real.sin (aS i) = 0 := by
    rcases mul_eq_zero.1 h2 with h | h
    · exact h
    · exact absurd h hrpos.ne'
  have hpyth := Real.sin_sq_add_cos_sq (aS i)
  rw [hcos, hsin] at hpyth
  norm_num at hpyth

/-- C6 witness: the amended claim instantiated with strictly positive
radial draws — the center is not among the generated positions. -/
theorem c6_witness :
    (((200 : ℕ) : ℝ) * 0.5, ((100 : ℕ) : ℝ) * 0.5)
      ∉ (generate_agents (200, 100) 5 1 (fun _ => 0)
          (fun _ => (1 : ℝ) / 2)).map Agent.position := by
  intro hmem
  rcases List.mem_map.1 hmem with ⟨ag, hag, hpos⟩
  exact c6_no_agent_at_center_amended (200, 100) 5 1 (fun _ => 0)
    (fun _ => (1 : ℝ) / 2) (by norm_num)
    (fun _ => ⟨by norm_num, by norm_num⟩) ag hag hpos

/-- C6 counterexample: with the radial draw `rng.random_range(0.0..1.0)`
returning exactly `0` (a value the range permits), the single generated
agent sits exactly at the field center `(100, 50)` of a 200×100 field. -/
theorem c6_counterexample :
    (generate_agents (200, 100) 1 1 (fun _ => 0) (fun _ => 0)).map
        Agent.position
      = [(((200 : ℕ) : ℝ) * 0.5, ((100 : ℕ) : ℝ) * 0.5)] := by
  simp [generate_agents, Real.sqrt_zero, List.range_succ, Function.comp]

/-- Helper: pointwise description of `copyOverride`. -/
theorem copyOverride_apply (base : ℕ) (w_override : List ℚ) (n : ℕ)
    (weights : ℕ → ℚ) (k : ℕ) :
    copyOverride base w_override n weights k
      = if base ≤ k ∧ k < base + n then w_override.getD (k - base) 0
        else weights k := by
  induction n with
  | zero =>
    simp only [copyOverride]
    rw [if_neg (by omega)]
  | succ n ih =>
    simp only [copyOverride]
    by_cases hk : k = base + n
    · subst hk
      rw [Function.update_same, if_pos (by omega)]
      have h : base + n - base = n := by omega
      rw [h]
    · rw [Function.update_apply, if_neg hk, ih]
      by_cases hin : base ≤ k ∧ k < base + n
      · rw [if_pos hin, if_pos (by omega)]
      · rw [if_neg hin, if_neg (by omega)]

/-- Helper: pointwise description of the four guarded legacy writes. -/
theorem writeLegacy_apply (base : ℕ) (s : SpeciesAuthored) (l4 : ℕ)
    (hl4 : l4 ≤ 4) (weights : ℕ → ℚ) (k : ℕ) :
    writeLegacy base s l4 weights k
      = if base ≤ k ∧ k < base + l4 then legacyComponent s (k - base)
        else weights k := by
  simp only [writeLegacy, ite_apply, Function.update_apply]
  split_ifs <;> first
    | rfl
    | omega
    | simp_all [legacyComponent, Nat.add_sub_cancel_left]

/-- Helper: a species-row write leaves keys outside its row untouched. -/
theorem writeSpeciesRow_frame (L si : ℕ) (s : SpeciesAuthored)
    (weights : ℕ → ℚ) (k : ℕ) (hk : k < si * L ∨ si * L + L ≤ k) :
    writeSpeciesRow L si s weights k = weights k := by
  cases hs : s.layer_weights with
  | some wo =>
    simp only [writeSpeciesRow, hs]
    rw [copyOverride_apply]
    have hm : min L wo.length ≤ L := min_le_left _ _
    rw [if_neg (by omega)]
  | none =>
    simp only [writeSpeciesRow, hs]
    rw [writeLegacy_apply _ _ _ (min_le_right L 4)]
    have hm : min L 4 ≤ L := min_le_left _ _
    rw [if_neg (by omega)]

/-- Helper: in-row value of a species-row write, explicit override case. -/
theorem writeSpeciesRow_in_some (L si l : ℕ) (s : SpeciesAuthored)
    (wo : List ℚ) (weights : ℕ → ℚ) (hw : s.layer_weights = some wo)
    (_hl : l < L) :
    writeSpeciesRow L si s weights (si * L + l)
      = if l < min L wo.length then wo.getD l 0
        else weights (si * L + l) := by
  simp only [writeSpeciesRow, hw]
  rw [copyOverride_apply]
  by_cases hc : l < min L wo.length
  · rw [if_pos (by omega)]
    have h : si * L + l - si * L = l := by omega
    rw [h, if_pos hc]
  · rw [if_neg (by omega), if_neg hc]

/-- Helper: in-row value of a species-row write, legacy `Vec4` case. -/
theorem writeSpeciesRow_in_none (L si l : ℕ) (s : SpeciesAuthored)
    (weights : ℕ → ℚ) (hw : s.layer_weights = none) (_hl : l < L) :
    writeSpeciesRow L si s weights (si * L + l)
      = if l < min L 4 then legacyComponent s l
        else weights (si * L + l) := by
  simp only [writeSpeciesRow, hw]
  rw [writeLegacy_apply _ _ _ (min_le_right L 4)]
  by_cases hc : l < min L 4
  · rw [if_pos (by omega)]
    have h : si * L + l - si * L = l := by omega
    rw [h, if_pos hc]
  · rw [if_neg (by omega), if_neg hc]

/-- Helper: a species-row write only reads the incoming buffer at the
queried key. -/
theorem writeSpeciesRow_congr (L si : ℕ) (s : SpeciesAuthored)
    (w1 w2 : ℕ → ℚ) (k : ℕ) (h : w1 k = w2 k) :
    writeSpeciesRow L si s w1 k = writeSpeciesRow L si s w2 k := by
  by_cases hin : si * L ≤ k ∧ k < si * L + L
  · have hkey : k = si * L + (k - si * L) := by omega
    have hl : k - si * L < L := by omega
    cases hw : s.layer_weights with
    | some wo =>
      rw [hkey, writeSpeciesRow_in_some L si _ s wo w1 hw hl,
        writeSpeciesRow_in_some L si _ s wo w2 hw hl, ← hkey, h]
    | none =>
      rw [hkey, writeSpeciesRow_in_none L si _ s w1 hw hl,
        writeSpeciesRow_in_none L si _ s w2 hw hl, ← hkey, h]
  · rw [writeSpeciesRow_frame _ _ _ _ _ (by omega),
      writeSpeciesRow_frame _ _ _ _ _ (by omega), h]

/-- Helper: the enumerate loop leaves keys below its starting row
untouched. -/
theorem speciesRowsFrom_frame (L : ℕ) (species : List SpeciesAuthored) :
    ∀ (si0 : ℕ) (weights : ℕ → ℚ) (k : ℕ), k < si0 * L →
      speciesRowsFrom L si0 species weights k = weights k := by
  induction species with
  | nil => intro si0 weights k hk; rfl
  | cons s rest ih =>
    intro si0 weights k hk
    simp only [speciesRowsFrom]
    have hstep : si0 * L ≤ (si0 + 1) * L := by
      rw [Nat.succ_mul]
      omega
    rw [ih (si0 + 1) _ k (by omega)]
    exact writeSpeciesRow_frame L si0 s weights k (Or.inl hk)

/-- Helper: the value the enumerate loop leaves at row `si0 + j`, layer
`l` is the row-write of species `j` over the original buffer. -/
theorem speciesRowsFrom_get (L : ℕ) (species : List SpeciesAuthored) :
    ∀ (si0 j : ℕ) (s : SpeciesAuthored) (weights : ℕ → ℚ) (l : ℕ),
      species[j]? = some s → l < L →
      speciesRowsFrom L si0 species weights ((si0 + j) * L + l)
        = writeSpeciesRow L (si0 + j) s weights ((si0 + j) * L + l) := by
  induction species with
  | nil =>
    intro si0 j s weights l hj hl
    simp at hj
  | cons s0 rest ih =>
    intro si0 j s weights l hj hl
    cases j with
    | zero =>
      simp only [List.getElem?_cons_zero] at hj
      obtain rfl := Option.some.inj hj
      simp only [speciesRowsFrom, Nat.add_zero]
      have hkey : si0 * L + l < (si0 + 1) * L := by
        rw [Nat.succ_mul]
        omega
      rw [speciesRowsFrom_frame L rest (si0 + 1) _ _ hkey]
    | succ j =>
      simp only [List.getElem?_cons_succ] at hj
      simp only [speciesRowsFrom]
      have heq : si0 + (j + 1) = si0 + 1 + j := by omega
      rw [heq, ih (si0 + 1) j s _ l hj hl]
      apply writeSpeciesRow_congr
      apply writeSpeciesRow_frame
      right
      have hexp : (si0 + 1 + j) * L = si0 * L + L + j * L := by ring
      omega

/-- Helper: pointwise description of one universal love/hate row pass. -/
theorem universalRow_apply (love hate : List ℕ) (base : ℕ) :
    ∀ (n : ℕ) (weights : ℕ → ℚ) (k : ℕ),
      universalRow love hate base n weights k
        = if base ≤ k ∧ k < base + n then
            (if (k - base) ∈ hate then -1
             else if (k - base) ∈ love then 1 else weights k)
          else weights k := by
  intro n
  induction n with
  | zero =>
    intro weights k
    simp only [universalRow]
    rw [if_neg (by omega)]
  | succ n ih =>
    intro weights k
    simp only [universalRow]
    by_cases hk : k = base + n
    · subst hk
      have hf : universalRow love hate base n weights (base + n)
          = weights (base + n) := by
        rw [ih]
        rw [if_neg (by omega)]
      have hnb : base + n - base = n := by omega
      by_cases hh : n ∈ hate
      · rw [if_pos hh, Function.update_same, if_pos (by omega), hnb, if_pos hh]
      · rw [if_neg hh]
        by_cases hl : n ∈ love
        · rw [if_pos hl, Function.update_same, if_pos (by omega), hnb,
            if_neg hh, if_pos hl]
        · rw [if_neg hl, hf, if_pos (by omega), hnb, if_neg hh, if_neg hl]
    · have hupd : ∀ (g : ℕ → ℚ) (v : ℚ),
          Function.update g (base + n) v k = g k := by
        intro g v
        rw [Function.update_apply, if_neg hk]
      by_cases hh : n ∈ hate
      · rw [if_pos hh, hupd]
        by_cases hl : n ∈ love
        · rw [if_pos hl, hupd, ih]
          by_cases hin : base ≤ k ∧ k < base + n
          · rw [if_pos hin,
              if_pos (show base ≤ k ∧ k < base + (n + 1) from ⟨hin.1, by omega⟩)]
          · rw [if_neg hin,
              if_neg (show ¬(base ≤ k ∧ k < base + (n + 1)) from by omega)]
        · rw [if_neg hl, ih]
          by_cases hin : base ≤ k ∧ k < base + n
          · rw [if_pos hin,
              if_pos (show base ≤ k ∧ k < base + (n + 1) from ⟨hin.1, by omega⟩)]
          · rw [if_neg hin,
              if_neg (show ¬(base ≤ k ∧ k < base + (n + 1)) from by omega)]
      · rw [if_neg hh]
        by_cases hl : n ∈ love
        · rw [if_pos hl, hupd, ih]
          by_cases hin : base ≤ k ∧ k < base + n
          · rw [if_pos hin,
              if_pos (show base ≤ k ∧ k < base + (n + 1) from ⟨hin.1, by omega⟩)]
          · rw [if_neg hin,
              if_neg (show ¬(base ≤ k ∧ k < base + (n + 1)) from by omega)]
        · rw [if_neg hl, ih]
          by_cases hin : base ≤ k ∧ k < base + n
          · rw [if_pos hin,
              if_pos (show base ≤ k ∧ k < base + (n + 1) from ⟨hin.1, by omega⟩)]
          · rw [if_neg hin,
              if_neg (show ¬(base ≤ k ∧ k < base + (n + 1)) from by omega)]

/-- Helper: the universal pass leaves keys at or above row `n`
untouched. -/
theorem universalRows_frame (love hate : List ℕ) (L : ℕ) :
    ∀ (n : ℕ) (weights : ℕ → ℚ) (k : ℕ), n * L ≤ k →
      universalRows love hate L n weights k = weights k := by
  intro n
  induction n with
  | zero => intro weights k hk; rfl
  | succ n ih =>
    intro weights k hk
    rw [Nat.succ_mul] at hk
    simp only [universalRows]
    rw [universalRow_apply, if_neg (by omega)]
    exact ih weights k (by omega)

/-- Helper: value of the universal pass at row `s < n`, layer `l < L`. -/
theorem universalRows_get (love hate : List ℕ) (L : ℕ) :
    ∀ (n s l : ℕ) (weights : ℕ → ℚ), s < n → l < L →
      universalRows love hate L n weights (s * L + l)
        = if l ∈ hate then -1
          else if l ∈ love then 1 else weights (s * L + l) := by
  intro n
  induction n with
  | zero => intro s l weights hs hl; omega
  | succ n ih =>
    intro s l weights hs hl
    simp only [universalRows]
    by_cases hsn : s = n
    · subst hsn
      rw [universalRow_apply, if_pos (by omega)]
      have h : s * L + l - s * L = l := by omega
      rw [h, universalRows_frame love hate L s weights _ (Nat.le_add_right _ _)]
    · have h1 : (s + 1) * L ≤ n * L := Nat.mul_le_mul_right L (by omega)
      rw [Nat.succ_mul] at h1
      rw [universalRow_apply, if_neg (by omega)]
      exact ih s l weights (by omega) hl

/-- C2 (amended): for every species list, layer configuration and indices
`s`, `l < layer_count` (with `layer_count = max cfg 1`), the dense matrix
entry is: `-1` if `l` is a universal-repel layer; OTHERWISE `+1` if `l` is
a universal-attract layer (repel wins when a layer is listed in both sets,
because the repel write runs second); otherwise the authored value — the
`l`-th component of the explicit per-layer vector (0 past its end), or the
`l`-th legacy `Vec4` component for `l < min(4, layer_count)` and 0 for
`l ≥ 4` when no explicit vector exists. -/
theorem c2_weight_matrix_amended :
    ∀ (species : List SpeciesAuthored) (cfgL : ℕ) (love hate : List ℕ)
      (s l : ℕ) (sp : SpeciesAuthored),
      species[s]? = some sp → l < max cfgL 1 →
      upload_species_weights species cfgL love hate (s * max cfgL 1 + l)
        = if l ∈ hate then -1
          else if l ∈ love then 1
          else authoredEntry sp (max cfgL 1) l := by
  intro species cfgL love hate s l sp hsp hl
  have hslen : s < species.length := by
    by_contra h
    rw [List.getElem?_eq_none (by omega)] at hsp
    exact Option.noConfusion hsp
  simp only [upload_species_weights]
  rw [universalRows_get love hate (max cfgL 1) species.length s l _ hslen hl]
  have hrow : speciesRowsFrom (max cfgL 1) 0 species (fun _ => 0)
      (s * max cfgL 1 + l) = authoredEntry sp (max cfgL 1) l := by
    have hget := speciesRowsFrom_get (max cfgL 1) species 0 s sp
      (fun _ => 0) l hsp hl
    simp only [Nat.zero_add] at hget
    rw [hget]
    cases hw : sp.layer_weights with
    | some wo =>
      rw [writeSpeciesRow_in_some _ _ _ _ _ _ hw hl]
      simp only [authoredEntry, hw]
    | none =>
      rw [writeSpeciesRow_in_none _ _ _ _ _ hw hl]
      simp only [authoredEntry, hw]
  rw [hrow]

/-- C2 witness: the amended claim applied to a two-species list (one
legacy, one with an explicit override), five layers, attract set `{1}`
and repel set `{0}`, read back at species 1, layer 2. -/
theorem c2_witness :
    upload_species_weights
        [⟨(2, 3, 5, 7), none⟩, ⟨(0, 0, 0, 0), some [11, 13]⟩] 5 [1] [0]
        (1 * max 5 1 + 2)
      = if 2 ∈ [0] then -1
        else if 2 ∈ [1] then 1
        else authoredEntry ⟨(0, 0, 0, 0), some [11, 13]⟩ (max 5 1) 2 :=
  c2_weight_matrix_amended
    [⟨(2, 3, 5, 7), none⟩, ⟨(0, 0, 0, 0), some [11, 13]⟩] 5 [1] [0] 1 2
    ⟨(0, 0, 0, 0), some [11, 13]⟩ rfl (by decide)

/-- C2 counterexample: a layer listed in BOTH `universal_attract_layers`
and `universal_repel_layers` (the claim quantifies over every layer
configuration) ends at `-1`, not at the `+1` the attract clause demands:
one species, one layer, attract = repel = `{0}`, entry `(0,0)`. -/
theorem c2_counterexample :
    upload_species_weights [⟨(0, 0, 0, 0), none⟩] 1 [0] [0]
        (0 * max 1 1 + 0) = -1
    ∧ upload_species_weights [⟨(0, 0, 0, 0), none⟩] 1 [0] [0]
        (0 * max 1 1 + 0) ≠ 1 := by
  constructor
  · decide
  · decide

/-- C10: `channel_to_mask` always has fourth (w) component `1`, and for
channel 3 or any channel `≥ 4` its first three (rgb) components are all
`0`; consequently, in `build_species_settings_from_components`, a
`FollowsPheromone` with strength `s` adds `s` to the fourth weight
component (and, for channels `≤ 2`, also to legacy component `channel`),
an `AvoidsPheromone` subtracts its strength from the fourth component, and
a follow or avoid with channel `≥ 4` leaves the first three weight
components unchanged. -/
theorem c10_channel_mask_weights :
    (∀ ch : ℕ, (channel_to_mask ch).2.2.2 = 1)
    ∧ (∀ ch : ℕ, ch = 3 ∨ 4 ≤ ch →
        (channel_to_mask ch).1 = 0 ∧ (channel_to_mask ch).2.1 = 0
        ∧ (channel_to_mask ch).2.2.1 = 0)
    ∧ (∀ (color : ℚ × ℚ × ℚ × ℚ) (ms ts sa so ssz : ℚ)
        (f : FollowsPheromone) (av : Option AvoidsPheromone)
        (em : Option EmitsPheromone),
        (build_species_settings_from_components color ms ts sa so ssz
            (some f) av em).weights.2.2.2
          = (build_species_settings_from_components color ms ts sa so ssz
              none av em).weights.2.2.2 + f.strength
        ∧ (f.channel ≤ 2 →
            v4get (build_species_settings_from_components color ms ts sa so ssz
                (some f) av em).weights f.channel
              = v4get (build_species_settings_from_components color ms ts sa so ssz
                  none av em).weights f.channel + f.strength)
        ∧ (4 ≤ f.channel →
            (build_species_settings_from_components color ms ts sa so ssz
                (some f) av em).weights.1
              = (build_species_settings_from_components color ms ts sa so ssz
                  none av em).weights.1
            ∧ (build_species_settings_from_components color ms ts sa so ssz
                (some f) av em).weights.2.1
              = (build_species_settings_from_components color ms ts sa so ssz
                  none av em).weights.2.1
            ∧ (build_species_settings_from_components color ms ts sa so ssz
                (some f) av em).weights.2.2.1
              = (build_species_settings_from_components color ms ts sa so ssz
                  none av em).weights.2.2.1))
    ∧ (∀ (color : ℚ × ℚ × ℚ × ℚ) (ms ts sa so ssz : ℚ)
        (fo : Option FollowsPheromone) (a : AvoidsPheromone)
        (em : Option EmitsPheromone),
        (build_species_settings_from_components color ms ts sa so ssz
            fo (some a) em).weights.2.2.2
          = (build_species_settings_from_components color ms ts sa so ssz
              fo none em).weights.2.2.2 - a.strength
        ∧ (4 ≤ a.channel →
            (build_species_settings_from_components color ms ts sa so ssz
                fo (some a) em).weights.1
              = (build_species_settings_from_components color ms ts sa so ssz
                  fo none em).weights.1
            ∧ (build_species_settings_from_components color ms ts sa so ssz
                fo (some a) em).weights.2.1
              = (build_species_settings_from_components color ms ts sa so ssz
                  fo none em).weights.2.1
            ∧ (build_species_settings_from_components color ms ts sa so ssz
                fo (some a) em).weights.2.2.1
              = (build_species_settings_from_components color ms ts sa so ssz
                  fo none em).weights.2.2.1)) := by
  have hmaskw : ∀ ch : ℕ, (channel_to_mask ch).2.2.2 = 1 := by
    intro ch
    rcases ch with _ | _ | _ | _ | n <;> rfl
  refine ⟨hmaskw, ?_, ?_, ?_⟩
  · intro ch hch
    rcases ch with _ | _ | _ | _ | n
    · rcases hch with h | h <;> omega
    · rcases hch with h | h <;> omega
    · rcases hch with h | h <;> omega
    · exact ⟨rfl, rfl, rfl⟩
    · exact ⟨rfl, rfl, rfl⟩
  · intro color ms ts sa so ssz f av em
    obtain ⟨c, s⟩ := f
    refine ⟨?_, ?_, ?_⟩
    · cases av with
      | none =>
        simp [build_species_settings_from_components, v4add, v4sub, v4smul,
          hmaskw]
      | some a =>
        simp [build_species_settings_from_components, v4add, v4sub, v4smul,
          hmaskw]
        ring
    · intro hc
      interval_cases c <;> cases av <;>
        simp [build_species_settings_from_components, v4add, v4sub, v4smul,
          channel_to_mask, v4get] <;> ring
    · intro hc
      have hc4 : 4 ≤ c := hc
      obtain ⟨c0, rfl⟩ : ∃ m, c = m + 4 := ⟨c - 4, by omega⟩
      cases av <;>
        simp [build_species_settings_from_components, v4add, v4sub, v4smul,
          channel_to_mask]
  · intro color ms ts sa so ssz fo a em
    obtain ⟨c, t⟩ := a
    refine ⟨?_, ?_⟩
    · cases fo with
      | none =>
        simp [build_species_settings_from_components, v4add, v4sub, v4smul,
          hmaskw]
      | some f =>
        simp [build_species_settings_from_components, v4add, v4sub, v4smul,
          hmaskw]
        try ring
    · intro hc
      have hc4 : 4 ≤ c := hc
      obtain ⟨c0, rfl⟩ : ∃ m, c = m + 4 := ⟨c - 4, by omega⟩
      cases fo <;>
        simp [build_species_settings_from_components, v4add, v4sub, v4smul,
          channel_to_mask]

/-- C10 witness: a follow component on channel 1 with strength 7 raises
both the second and the fourth weight component by 7; an avoid on channel
5 lowers only the fourth. -/
theorem c10_witness :
    ((build_species_settings_from_components (0, 0, 0, 0) 1 1 1 1 1
        (some ⟨1, 7⟩) none none).weights.2.2.2
      = (build_species_settings_from_components (0, 0, 0, 0) 1 1 1 1 1
          none none none).weights.2.2.2 + (7 : ℚ))
    ∧ (v4get (build_species_settings_from_components (0, 0, 0, 0) 1 1 1 1 1
        (some ⟨1, 7⟩) none none).weights 1
      = v4get (build_species_settings_from_components (0, 0, 0, 0) 1 1 1 1 1
          none none none).weights 1 + (7 : ℚ))
    ∧ (build_species_settings_from_components (0, 0, 0, 0) 1 1 1 1 1
        none (some ⟨5, 7⟩) none).weights.1
      = (build_species_settings_from_components (0, 0, 0, 0) 1 1 1 1 1
          none none none).weights.1 := by
  refine ⟨?_, ?_, ?_⟩
  · exact (c10_channel_mask_weights.2.2.1 (0, 0, 0, 0) 1 1 1 1 1 ⟨1, 7⟩
      none none).1
  · exact (c10_channel_mask_weights.2.2.1 (0, 0, 0, 0) 1 1 1 1 1 ⟨1, 7⟩
      none none).2.1 (by norm_num)
  · exact ((c10_channel_mask_weights.2.2.2 (0, 0, 0, 0) 1 1 1 1 1 none
      ⟨5, 7⟩ none).2 (by norm_num)).1

end BevySlime
